import Mathlib

/-!
Verification of the identity reconciliation engine of
dev-analytics-import-sh-json.  The definitions below are a shallow
embedding of the Go source (the full-featured importer variant with
compare / replace / organizations-read-only modes and project-slug
scoping).  Database tables are modelled as lists of rows; per-statement
SQL effects become pure list operations; the fatal error path
(fatalOnError / fatalf) becomes the error case of Except.
-/

/-- Model of shTime.  The Go struct wraps time.Time plus a Set flag; only
the calendar date is observable through its String method (format
2006-01-02), which is the only use the engine makes of times apart from
storing them verbatim. -/
structure shTime where
  year : Nat
  month : Nat
  day : Nat
  hour : Nat
  minute : Nat
  second : Nat
  isSet : Bool
deriving DecidableEq

/-- Model of shCountry. -/
structure shCountry where
  Alpha3 : String
  Code : String
  Name : String
deriving DecidableEq

/-- Model of shProfile.  Optional (pointer) fields become Option. -/
structure shProfile where
  Country : Option shCountry
  Email : Option String
  Gender : Option String
  GenderAcc : Option Int
  IsBot : Option Bool
  Name : Option String
  UUID : String
  CountryCode : Option String
deriving DecidableEq

/-- Model of shIdentity.  The server-assigned LastModified column is
never read back by the engine and is omitted. -/
structure shIdentity where
  Email : Option String
  ID : String
  Name : Option String
  Source : String
  Username : Option String
  UUID : String
deriving DecidableEq

/-- Model of shEnrollment.  OrgID is the Go zero value 0 until
getCompIds resolves it; ProjectSlug is only ever set when scanning
existing rows (the JSON input never populates it). -/
structure shEnrollment where
  UUID : String
  Organization : String
  Start : shTime
  End : shTime
  OrgID : Int
  ProjectSlug : Option String
deriving DecidableEq

/-- Model of shUIdentity. -/
structure shUIdentity where
  UUID : String
  Profile : shProfile
  Identities : List shIdentity
  Enrollments : List shEnrollment
deriving DecidableEq

/-- Model of importStats; Go int counters only ever incremented. -/
structure importStats where
  uidentitiesAdded : Nat
  uidentitiesFound : Nat
  profilesAdded : Nat
  profilesFound : Nat
  profilesSame : Nat
  profilesDeleted : Nat
  identitiesAdded : Nat
  identitiesFound : Nat
  identitiesSame : Nat
  identitiesDeleted : Nat
  enrollmentsAdded : Nat
  enrollmentsFound : Nat
  enrollmentsSame : Nat
  enrollmentsDeleted : Nat
  enrollmentsSkipped : Nat
deriving DecidableEq

def emptyStats : importStats :=
  ⟨0, 0, 0, 0, 0, 0, 0, 0, 0, 0, 0, 0, 0, 0, 0⟩

/-- Pointwise sum of two statistics records; this is the merge performed
under the shared lock at the end of processUIdentity. -/
def addStats (a b : importStats) : importStats :=
  ⟨a.uidentitiesAdded + b.uidentitiesAdded,
   a.uidentitiesFound + b.uidentitiesFound,
   a.profilesAdded + b.profilesAdded,
   a.profilesFound + b.profilesFound,
   a.profilesSame + b.profilesSame,
   a.profilesDeleted + b.profilesDeleted,
   a.identitiesAdded + b.identitiesAdded,
   a.identitiesFound + b.identitiesFound,
   a.identitiesSame + b.identitiesSame,
   a.identitiesDeleted + b.identitiesDeleted,
   a.enrollmentsAdded + b.enrollmentsAdded,
   a.enrollmentsFound + b.enrollmentsFound,
   a.enrollmentsSame + b.enrollmentsSame,
   a.enrollmentsDeleted + b.enrollmentsDeleted,
   a.enrollmentsSkipped + b.enrollmentsSkipped⟩

/-- The Go constant nils, printed for nil pointer fields. -/
def nils : String := "(nil)"

/-- Model of the external text normalizer stripUnicodeStr: NFKD
normalization followed by removal of every rune r with r < 32 or
r >= 127.  NFKD is an external collaborator (identity on the ASCII
fragment the engine compares); the model keeps exactly the code points
32..126. -/
def stripUnicodeStr (str : String) : String :=
  String.mk (str.toList.filter (fun r => 32 ≤ r.toNat && r.toNat < 127))

/-- stripUnicode: nil stays nil, otherwise stripUnicodeStr. -/
def stripUnicode (pStr : Option String) : Option String :=
  pStr.map stripUnicodeStr

/-- cleanUTF8 removes embedded NUL bytes. -/
def cleanUTF8 (str : String) : String :=
  String.mk (str.toList.filter (fun c => c.toNat != 0))

/-- Helper loop of truncToBytes: accumulate runes while the UTF-8 byte
length stays within size. -/
def truncAux (size : Nat) : List Char → Nat → List Char
  | [], _ => []
  | c :: cs, acc =>
    if acc + c.utf8Size > size then []
    else c :: truncAux size cs (acc + c.utf8Size)

/-- truncToBytes: clean NULs, return unchanged when the byte length is
already below size, otherwise keep a maximal prefix of runes whose
UTF-8 encoding fits in size bytes. -/
def truncToBytes (str0 : String) (size : Nat) : String :=
  let str := cleanUTF8 str0
  if str.utf8ByteSize < size then str
  else String.mk (truncAux size str.toList 0)

/-- truncStringOrNil: nil stays nil (SQL NULL), otherwise truncToBytes. -/
def truncStringOrNil (strPtr : Option String) (maxLen : Nat) : Option String :=
  strPtr.map (fun s => truncToBytes s maxLen)

/-- One optional field comparison as written in the Go differ functions:
two consecutive if statements, the first detecting a presence mismatch,
the second comparing the (normalized) values when both are present. -/
def goFieldDiffers (f : α → β) [BEq β] (a b : Option α) : Bool :=
  ((a.isNone && b.isSome) || (a.isSome && b.isNone)) ||
  (match a, b with
   | some x, some y => f x != f y
   | _, _ => false)

/-- profilesDiffer, translated clause by clause from the source: the
chain of early-return ifs over Name, Email, GenderAcc, IsBot and
CountryCode is the disjunction of the per-field checks.  Name and Email
are compared after stripUnicodeStr, GenderAcc and IsBot directly, and
CountryCode after truncation of both sides to 2 bytes.  The Gender
field is never examined. -/
def profilesDiffer (p1 p2 : shProfile) : Bool :=
  goFieldDiffers stripUnicodeStr p1.Name p2.Name ||
  goFieldDiffers stripUnicodeStr p1.Email p2.Email ||
  goFieldDiffers id p1.GenderAcc p2.GenderAcc ||
  goFieldDiffers id p1.IsBot p2.IsBot ||
  goFieldDiffers (fun c => truncToBytes c 2) p1.CountryCode p2.CountryCode

/-- identitiesDiffer: UUID, ID and Source compared directly, then the
optional Name, Email and Username fields with normalization. -/
def identitiesDiffer (i1 i2 : shIdentity) : Bool :=
  (i1.UUID != i2.UUID) ||
  (i1.ID != i2.ID) ||
  (i1.Source != i2.Source) ||
  goFieldDiffers stripUnicodeStr i1.Name i2.Name ||
  goFieldDiffers stripUnicodeStr i1.Email i2.Email ||
  goFieldDiffers stripUnicodeStr i1.Username i2.Username

/-- Decimal rendering padded with leading zeros, as produced by the Go
time format 2006-01-02 for the year, month and day components. -/
def padNat (width n : Nat) : String :=
  let s := toString n
  String.mk (List.replicate (width - s.length) '0') ++ s

/-- shTime.String: Format("2006-01-02"), i.e. the date only. -/
def shTime.String (t : shTime) : String :=
  padNat 4 t.year ++ "-" ++ padNat 2 t.month ++ "-" ++ padNat 2 t.day

/-- shEnrollment.String: the canonical key used by enrollmentsDiffer. -/
def shEnrollment.String (e : shEnrollment) : String :=
  "\x7bUUID:" ++ e.UUID ++ ",Organization:" ++ e.Organization ++
    ",OrgID:" ++ toString e.OrgID ++ ",From:" ++ e.Start.String ++
    ",End:" ++ e.End.String ++ ",ProjectSlug:" ++
    (match e.ProjectSlug with
     | some s => s ++ "\x7d"
     | none => nils ++ "\x7d")

/-- enrollmentsDiffer: build the key set of each side (a Go
map[string]struct; membership is all that is consulted, so the model
uses the key lists with containment checks) and report a difference as
soon as either side holds a key the other does not. -/
def enrollmentsDiffer (e1 e2 : List shEnrollment) : Bool :=
  let m1 := e1.map shEnrollment.String
  let m2 := e2.map shEnrollment.String
  m1.any (fun k1 => !(m2.contains k1)) || m2.any (fun k2 => !(m1.contains k2))

/-- The add/keep/replace decision shared verbatim by the profile,
identity and enrollment phases of processUIdentity:
same is set only when a row was fetched and compare mode is on;
a delete happens when a row was fetched, is not the same and replace
mode is on; an insert happens when the entity is not the same and
either nothing was fetched or replace mode is on.
Returns (same, delete, insert). -/
def phaseDecision (fetched compare replace differ : Bool) : Bool × Bool × Bool :=
  let same := fetched && (compare && !differ)
  let del := fetched && (!same && replace)
  let ins := !same && (!fetched || (fetched && replace))
  (same, del, ins)

/-- The decision table of the specification, section 4.3, as a pair
(delete, insert): insert when nothing was fetched; keep when fetched
with compare on and no difference; delete plus insert when fetched with
replace on and either compare off or a difference; keep otherwise. -/
def tableAction (fetched compare replace differ : Bool) : Bool × Bool :=
  if !fetched then (false, true)
  else if compare && !differ then (false, false)
  else if replace then (true, true)
  else (false, false)

/-- A stored row of the enrollments table:
enrollments(uuid, organization_id, start, end, project_slug). -/
structure enrollmentRow where
  uuid : String
  organization_id : Int
  Start : shTime
  End : shTime
  project_slug : Option String
deriving DecidableEq

/-- The persisted state touched by one reconciliation worker.  Stored
profile rows reuse shProfile with Country none (the column set does not
include a country object); stored identity rows reuse shIdentity. -/
structure dbState where
  uidentities : List String
  profiles : List shProfile
  identities : List shIdentity
  enrollments : List enrollmentRow
deriving DecidableEq

/-- Lookup in the comp2id / lcomp2id name-to-id maps (Go map reads). -/
def lookupStr (m : List (String × Int)) (k : String) : Option Int :=
  (m.find? (fun p => p.fst == k)).map (fun p => p.snd)

/-- Lookup in the id2comp map. -/
def lookupInt (m : List (Int × String)) (k : Int) : Option String :=
  (m.find? (fun p => p.fst == k)).map (fun p => p.snd)

/-- The assignment uidentity.Profile.CountryCode = Country.Code
performed when a country object is present, before comparing and before
inserting a profile (the source repeats it at both places; it is
idempotent, so the model applies it once). -/
def setProfileCountryCode (p : shProfile) : shProfile :=
  match p.Country with
  | some c => { p with CountryCode := some c.Code }
  | none => p

/-- The profile row written by the insert statement: Name and Email
normalized, Gender / GenderAcc / IsBot verbatim, CountryCode truncated
to 2 bytes or NULL. -/
def insertedProfileRow (uuid : String) (prof : shProfile) : shProfile :=
  { Country := none
    Email := stripUnicode prof.Email
    Gender := prof.Gender
    GenderAcc := prof.GenderAcc
    IsBot := prof.IsBot
    Name := stripUnicode prof.Name
    UUID := uuid
    CountryCode := truncStringOrNil prof.CountryCode 2 }

/-- The profile phase of processUIdentity: fetch by uuid (first row),
count found, compare when requested, then delete and insert per the
shared decision logic.  Returns the new profiles table and the local
statistics contribution of this phase. -/
def profilePhase (compare replace : Bool) (profs : List shProfile)
    (uid : shUIdentity) : List shProfile × importStats :=
  let existing? := profs.find? (fun p => p.UUID == uid.UUID)
  let fetched := existing?.isSome
  let prof := setProfileCountryCode uid.Profile
  let differ :=
    match existing? with
    | some ex => profilesDiffer prof ex
    | none => true
  let sdi := phaseDecision fetched compare replace differ
  let same := sdi.fst
  let del := sdi.snd.fst
  let ins := sdi.snd.snd
  let profs1 := if del then profs.filter (fun p => !(p.UUID == uid.UUID)) else profs
  let profs2 := if ins then profs1 ++ [insertedProfileRow uid.UUID prof] else profs1
  (profs2,
   { emptyStats with
     profilesFound := if fetched then 1 else 0
     profilesSame := if same then 1 else 0
     profilesDeleted := if del then 1 else 0
     profilesAdded := if ins then 1 else 0 })

/-- MySQL equality of a nullable column against a bound parameter:
true only when both sides are non-NULL and equal (NULL never matches). -/
def optEqSQL (col param : Option String) : Bool :=
  match col, param with
  | some a, some b => a == b
  | _, _ => false

/-- The tuple part of the identity match clause
(name = ? and email = ? and username = ? and source = ?): the incoming
normalized (name, email, username, source) values against one stored
row, under SQL NULL semantics. -/
def identityTupleMatch (identity row : shIdentity) : Bool :=
  optEqSQL row.Name (stripUnicode identity.Name) &&
  optEqSQL row.Email (stripUnicode identity.Email) &&
  optEqSQL row.Username (stripUnicode identity.Username) &&
  row.Source == identity.Source

/-- The WHERE clause of the identity fetch and delete statements:
id = ? or (name = ? and email = ? and username = ? and source = ?), the
three optional parameters being the normalized incoming fields. -/
def identityMatch (identity row : shIdentity) : Bool :=
  row.ID == identity.ID || identityTupleMatch identity row

/-- The identity row written by the insert statement. -/
def insertedIdentityRow (identity : shIdentity) : shIdentity :=
  { Email := stripUnicode identity.Email
    ID := identity.ID
    Name := stripUnicode identity.Name
    Source := identity.Source
    Username := stripUnicode identity.Username
    UUID := identity.UUID }

/-- One loop iteration of the identity phase: fetch the first row
matched by external id or by the content tuple, compare when requested,
delete the matched rows and insert per the shared decision logic. -/
def identityStep (compare replace : Bool) (rows : List shIdentity)
    (identity : shIdentity) : List shIdentity × importStats :=
  let existing? := rows.find? (fun r => identityMatch identity r)
  let fetched := existing?.isSome
  let differ :=
    match existing? with
    | some ex => identitiesDiffer identity ex
    | none => true
  let sdi := phaseDecision fetched compare replace differ
  let same := sdi.fst
  let del := sdi.snd.fst
  let ins := sdi.snd.snd
  let rows1 := if del then rows.filter (fun r => !(identityMatch identity r)) else rows
  let rows2 := if ins then rows1 ++ [insertedIdentityRow identity] else rows1
  (rows2,
   { emptyStats with
     identitiesFound := if fetched then 1 else 0
     identitiesSame := if same then 1 else 0
     identitiesDeleted := if del then 1 else 0
     identitiesAdded := if ins then 1 else 0 })

/-- The identity phase: the loop over uidentity.Identities, threading
the identities table and adding up the per-iteration statistics. -/
def identitiesPhase (compare replace : Bool) (rows : List shIdentity) :
    List shIdentity → List shIdentity × importStats
  | [] => (rows, emptyStats)
  | i :: rest =>
    let step := identityStep compare replace rows i
    let restRes := identitiesPhase compare replace step.fst rest
    (restRes.fst, addStats step.snd restRes.snd)

/-- The WHERE clause shared by the enrollment fetch and delete
statements: uuid = ? together with project_slug = ? when a project slug
is configured and project_slug is null otherwise. -/
def enrollmentMatchRow (uuid : String) (slug : Option String)
    (r : enrollmentRow) : Bool :=
  r.uuid == uuid && r.project_slug == slug

/-- Turn a fetched enrollment row into the shEnrollment value built in
the compare branch; its Organization name comes from the id2comp map
and a missing id is fatal. -/
def toExistingEnrollment (id2comp : List (Int × String)) (r : enrollmentRow) :
    Except String shEnrollment :=
  match lookupInt id2comp r.organization_id with
  | some org =>
    .ok { UUID := r.uuid, Organization := org, Start := r.Start, End := r.End,
          OrgID := r.organization_id, ProjectSlug := r.project_slug }
  | none => .error ("organization id " ++ toString r.organization_id ++ " not found")

/-- getCompIds: resolve each incoming enrollment organization through
comp2id; an unknown name is fatal unless organizations-read-only mode
is on, in which case the enrollment is left untouched (OrgID keeps its
parsed value, 0). -/
def getCompIds (orgsRO : Bool) (comp2id : List (String × Int)) :
    List shEnrollment → Except String (List shEnrollment)
  | [] => .ok []
  | e :: rest =>
    match lookupStr comp2id e.Organization with
    | some oid =>
      match getCompIds orgsRO comp2id rest with
      | .ok es => .ok ({ e with OrgID := oid } :: es)
      | .error msg => .error msg
    | none =>
      if orgsRO then
        match getCompIds orgsRO comp2id rest with
        | .ok es => .ok (e :: es)
        | .error msg => .error msg
      else .error ("organization " ++ e.Organization ++ " not found")

/-- The enrollment insert loop: each enrollment with an unresolved
OrgID (at most 0) is skipped and counted in read-only mode, every other
one becomes a stored row carrying the configured project slug.
Returns (rows inserted, added count, skipped count). -/
def insertEnrollments (orgsRO : Bool) (slug : Option String) :
    List shEnrollment → List enrollmentRow × Nat × Nat
  | [] => ([], 0, 0)
  | e :: rest =>
    let restRes := insertEnrollments orgsRO slug rest
    if orgsRO && e.OrgID ≤ 0 then
      (restRes.fst, restRes.snd.fst, restRes.snd.snd + 1)
    else
      ({ uuid := e.UUID, organization_id := e.OrgID, Start := e.Start,
         End := e.End, project_slug := slug } :: restRes.fst,
       restRes.snd.fst + 1, restRes.snd.snd)

/-- The statistics contribution of the enrollment phase. -/
def mkEnrollStats (fetched same del : Bool) (added skipped : Nat) : importStats :=
  { emptyStats with
    enrollmentsFound := if fetched then 1 else 0
    enrollmentsSame := if same then 1 else 0
    enrollmentsDeleted := if del then 1 else 0
    enrollmentsAdded := added
    enrollmentsSkipped := skipped }

/-- The compare step of the enrollment phase: when rows were fetched
and compare mode is on, rebuild the fetched shEnrollment values (fatal
on an unknown stored organization id), resolve the incoming
organizations through getCompIds, and report whether the two sides
differ; otherwise report differ (unused downstream in that case), the
unresolved incoming list and that resolution has not happened yet.
Returns (differ, incoming enrollments, compIDCalculated). -/
def enrollCmpStep (compare orgsRO : Bool) (comp2id : List (String × Int))
    (id2comp : List (Int × String)) (fetchedRows : List enrollmentRow)
    (fetched : Bool) (es : List shEnrollment) :
    Except String (Bool × List shEnrollment × Bool) :=
  if fetched && compare then
    match fetchedRows.mapM (toExistingEnrollment id2comp) with
    | .error msg => .error msg
    | .ok existing =>
      match getCompIds orgsRO comp2id es with
      | .error msg => .error msg
      | .ok enr => .ok (enrollmentsDiffer enr existing, enr, true)
  else .ok (true, es, false)

/-- The mutation step of the enrollment phase: delete the fetched scope
and run the insert loop per the shared decision logic, resolving
organizations first when the compare step did not already do so. -/
def enrollApply (compare replace orgsRO : Bool) (slug : Option String)
    (comp2id : List (String × Int)) (rows : List enrollmentRow)
    (uuid : String) (fetched : Bool) (cmp : Bool × List shEnrollment × Bool) :
    Except String (List enrollmentRow × importStats) :=
  if (phaseDecision fetched compare replace cmp.fst).snd.snd then
    match (if cmp.snd.snd then .ok cmp.snd.fst
           else getCompIds orgsRO comp2id cmp.snd.fst :
           Except String (List shEnrollment)) with
    | .error msg => .error msg
    | .ok enr2 =>
      .ok ((if (phaseDecision fetched compare replace cmp.fst).snd.fst then
              rows.filter (fun r => !(enrollmentMatchRow uuid slug r))
            else rows) ++ (insertEnrollments orgsRO slug enr2).fst,
           mkEnrollStats fetched (phaseDecision fetched compare replace cmp.fst).fst
             (phaseDecision fetched compare replace cmp.fst).snd.fst
             (insertEnrollments orgsRO slug enr2).snd.fst
             (insertEnrollments orgsRO slug enr2).snd.snd)
  else
    .ok ((if (phaseDecision fetched compare replace cmp.fst).snd.fst then
            rows.filter (fun r => !(enrollmentMatchRow uuid slug r))
          else rows),
         mkEnrollStats fetched (phaseDecision fetched compare replace cmp.fst).fst
           (phaseDecision fetched compare replace cmp.fst).snd.fst 0 0)

/-- The enrollment phase of processUIdentity: fetch the rows of this
uuid under the configured project slug (or NULL slug), run the compare
step, then delete and insert per the shared decision logic; the delete
statement removes exactly the fetched scope. -/
def enrollmentPhase (compare replace orgsRO : Bool) (slug : Option String)
    (comp2id : List (String × Int)) (id2comp : List (Int × String))
    (rows : List enrollmentRow) (uid : shUIdentity) :
    Except String (List enrollmentRow × importStats) :=
  match enrollCmpStep compare orgsRO comp2id id2comp
      (rows.filter (enrollmentMatchRow uid.UUID slug))
      (!(rows.filter (enrollmentMatchRow uid.UUID slug)).isEmpty)
      uid.Enrollments with
  | .error msg => .error msg
  | .ok cmp =>
    enrollApply compare replace orgsRO slug comp2id rows uid.UUID
      (!(rows.filter (enrollmentMatchRow uid.UUID slug)).isEmpty) cmp

/-- processUIdentity: the per-identity worker.  Phase 1 inserts the
uidentities row when absent, then the profile, identity and enrollment
phases run in order; the local statistics of all phases are summed (the
merge into the shared aggregate under the lock adds the same values). -/
def processUIdentity (replace compare orgsRO : Bool) (slug : Option String)
    (comp2id : List (String × Int)) (id2comp : List (Int × String))
    (db : dbState) (uid : shUIdentity) : Except String (dbState × importStats) :=
  let uidFetched := db.uidentities.contains uid.UUID
  let uidentities1 := if uidFetched then db.uidentities else db.uidentities ++ [uid.UUID]
  let uidStats : importStats :=
    { emptyStats with
      uidentitiesAdded := if uidFetched then 0 else 1
      uidentitiesFound := if uidFetched then 1 else 0 }
  let profRes := profilePhase compare replace db.profiles uid
  let identRes := identitiesPhase compare replace db.identities uid.Identities
  match enrollmentPhase compare replace orgsRO slug comp2id id2comp db.enrollments uid with
  | .error msg => .error msg
  | .ok enrRes =>
    .ok ({ uidentities := uidentities1, profiles := profRes.fst,
           identities := identRes.fst, enrollments := enrRes.fst },
         addStats (addStats uidStats profRes.snd) (addStats identRes.snd enrRes.snd))

/-- The sequential scheduler (the single-threaded path of
importJSONfiles; the concurrent path merges the same per-worker
statistics under a lock): fold processUIdentity over the batch,
aborting on the first fatal error. -/
def runBatch (replace compare orgsRO : Bool) (slug : Option String)
    (comp2id : List (String × Int)) (id2comp : List (Int × String))
    (db : dbState) (stats : importStats) :
    List shUIdentity → Except String (dbState × importStats)
  | [] => .ok (db, stats)
  | u :: rest =>
    match processUIdentity replace compare orgsRO slug comp2id id2comp db u with
    | .error msg => .error msg
    | .ok res =>
      runBatch replace compare orgsRO slug comp2id id2comp res.fst
        (addStats stats res.snd) rest

/-- Shared mutable state of the organization resolution phase: the
name-to-id and id-to-name maps, the missing-name set and the
organizations table itself (rows (id, name)). -/
structure orgState where
  comp2id : List (String × Int)
  id2comp : List (Int × String)
  missingOrgs : List String
  orgRows : List (Int × String)
deriving DecidableEq

/-- Map write comp2id[k] = v: a later read of k sees v (the model
prepends, which gives the same lookup results as overwriting). -/
def insertStr (m : List (String × Int)) (k : String) (v : Int) :
    List (String × Int) :=
  (k, v) :: m

/-- Map write id2comp[k] = v. -/
def insertInt (m : List (Int × String)) (k : Int) (v : String) :
    List (Int × String) :=
  (k, v) :: m

/-- The next auto-increment id of the organizations table. -/
def nextOrgId (orgRows : List (Int × String)) : Int :=
  (orgRows.map (fun r => r.fst)).foldl max 0 + 1

/-- addOrganization (default, non read-only mode): insert the
normalized name, treating a uniqueness violation as the one expected
recoverable error, then select the id by the raw name; finding no row
at that point is fatal. -/
def addOrganization (orgRows : List (Int × String)) (company : String) :
    Except String (Int × Bool × List (Int × String)) :=
  let stripped := stripUnicodeStr company
  let dup := (orgRows.map (fun r => r.snd)).contains stripped
  let orgRows1 := if dup then orgRows else orgRows ++ [(nextOrgId orgRows, stripped)]
  match (orgRows1.find? (fun r => r.snd == company)).map (fun r => r.fst) with
  | some id => .ok (id, dup, orgRows1)
  | none => .error ("failed to add company " ++ company)

/-- Left-to-right non-overlapping replacement of two consecutive
backslashes by one, the way strings.Replace with count -1 performs it. -/
def unescapeBackslashes : List Char → List Char
  | '\\' :: '\\' :: rest => '\\' :: unescapeBackslashes rest
  | c :: rest => c :: unescapeBackslashes rest
  | [] => []

/-- Unescaping applied to each regex mapping pattern before use: every
double backslash in the source rule becomes a single one. -/
def unescapeRe (re : String) : String :=
  String.mk (unescapeBackslashes re.toList)

/-- ASCII lower-casing of one character, the observable behaviour of
strings.ToLower on the names the engine handles (full Unicode folding
is the Go standard library collaborator). -/
def charToLower (c : Char) : Char :=
  if 65 ≤ c.toNat && c.toNat ≤ 90 then Char.ofNat (c.toNat + 32) else c

/-- strings.ToLower model. -/
def stringToLower (s : String) : String :=
  String.mk (s.toList.map charToLower)

/-- One pass over the regex mapping rules: the first rule whose
(unescaped) pattern matches s and whose canonical name resolves in the
given registry wins; a matching rule whose canonical name does not
resolve is reported and the scan continues.  Pattern matching itself is
delegated to the store (select ? regexp ?), modelled by the rmatch
parameter. -/
def firstMapping (rmatch : String → String → Bool) (reg : List (String × Int))
    (mappings : List (String × String)) (s : String) : Option Int :=
  match mappings with
  | [] => none
  | m :: rest =>
    if rmatch s (unescapeRe m.fst) then
      match lookupStr reg m.snd with
      | some cid => some cid
      | none => firstMapping rmatch reg rest s
    else firstMapping rmatch reg rest s

/-- processOrg (organizations-read-only mode), translated from the
closure in importJSONfiles: read cid from comp2id (the Go comma-ok read
leaves cid at the zero value 0 on a miss); if the name is known, do
nothing; else if the lower-cased name is in lcomp2id, record comp2id[comp] = cid
and id2comp[cid] = comp with that cid; else scan the mapping rules
against the name (canonical names resolved in comp2id), then against
the lower-cased name (canonical names resolved in lcomp2id); if nothing
matched, record the name as missing.  No statement other than selects
is issued: the organizations table is never written. -/
def processOrg (rmatch : String → String → Bool)
    (mappings : List (String × String)) (lcomp2id : List (String × Int))
    (comp : String) (st : orgState) : orgState :=
  let cid := (lookupStr st.comp2id comp).getD 0
  if (lookupStr st.comp2id comp).isSome then st
  else
    let lComp := stringToLower comp
    if (lookupStr lcomp2id lComp).isSome then
      { st with comp2id := insertStr st.comp2id comp cid,
                id2comp := insertInt st.id2comp cid comp }
    else
      match firstMapping rmatch st.comp2id mappings comp with
      | some cid2 =>
        { st with comp2id := insertStr st.comp2id comp cid2,
                  id2comp := insertInt st.id2comp cid2 comp }
      | none =>
        match firstMapping rmatch lcomp2id mappings lComp with
        | some cid2 =>
          { st with comp2id := insertStr st.comp2id comp cid2,
                    id2comp := insertInt st.id2comp cid2 comp }
        | none => { st with missingOrgs := st.missingOrgs ++ [comp] }

/-- One optional-field comparison in the words of the specification:
the two sides differ when presence disagrees, or both are present and
the normalized values disagree. -/
def fieldDiffers (f : α → β) [BEq β] (a b : Option α) : Bool :=
  (a.isSome != b.isSome) ||
  (match a, b with
   | some x, some y => f x != f y
   | _, _ => false)

/-- The profile differ in the words of claim C3: some optional field
among name, email, gender, gender-confidence, is-bot and country-code
differs, country codes being truncated to 2 characters first. -/
def specProfilesDiffer (p1 p2 : shProfile) : Bool :=
  fieldDiffers stripUnicodeStr p1.Name p2.Name ||
  fieldDiffers stripUnicodeStr p1.Email p2.Email ||
  fieldDiffers stripUnicodeStr p1.Gender p2.Gender ||
  fieldDiffers id p1.GenderAcc p2.GenderAcc ||
  fieldDiffers id p1.IsBot p2.IsBot ||
  fieldDiffers (fun c => truncToBytes c 2) p1.CountryCode p2.CountryCode

/-- The amended profile differ: as claim C3 but without the gender
field, which the source never examines. -/
def specProfilesDifferNoGender (p1 p2 : shProfile) : Bool :=
  fieldDiffers stripUnicodeStr p1.Name p2.Name ||
  fieldDiffers stripUnicodeStr p1.Email p2.Email ||
  fieldDiffers id p1.GenderAcc p2.GenderAcc ||
  fieldDiffers id p1.IsBot p2.IsBot ||
  fieldDiffers (fun c => truncToBytes c 2) p1.CountryCode p2.CountryCode

/-- A profile pair differing only in the Gender field. -/
def c3ProfileA : shProfile :=
  { Country := none, Email := none, Gender := some "male", GenderAcc := none,
    IsBot := none, Name := none, UUID := "uuid-c3", CountryCode := none }

/-- The same profile with the other gender value. -/
def c3ProfileB : shProfile :=
  { c3ProfileA with Gender := some "female" }

/-- Enrollment start date 2020-01-01. -/
def c5TimeStart : shTime := ⟨2020, 1, 1, 0, 0, 0, true⟩

/-- Enrollment end date 2021-01-01. -/
def c5TimeEndA : shTime := ⟨2021, 1, 1, 0, 0, 0, true⟩

/-- Enrollment end date 2021-01-02. -/
def c5TimeEndB : shTime := ⟨2021, 1, 2, 0, 0, 0, true⟩

/-- Enrollment in orgA over [2020-01-01, 2021-01-01]. -/
def c5EnrA : shEnrollment := ⟨"uuid-c5", "orgA", c5TimeStart, c5TimeEndA, 1, none⟩

/-- Enrollment in orgA over [2020-01-01, 2021-01-02]. -/
def c5EnrB : shEnrollment := ⟨"uuid-c5", "orgA", c5TimeStart, c5TimeEndB, 1, none⟩

/-- The match relation used in the concrete C6 scenario: the store
evaluates the pattern caret Acme dot star, which holds of every string
beginning with Acme. -/
def c6Rmatch : String → String → Bool :=
  fun s p => p == "^Acme.*" && (s.toList.take 4 == "Acme".toList)

/-- The concrete C6 registry: one organization, Acme Inc with id 1. -/
def c6Registry : orgState :=
  { comp2id := [("Acme Inc", 1)], id2comp := [(1, "Acme Inc")],
    missingOrgs := [], orgRows := [(1, "Acme Inc")] }

/-- The concrete C7 registry: one organization, Acme Inc with id 1; its
case-insensitive registry entry is acme inc with id 1. -/
def c7Registry : orgState :=
  { comp2id := [("Acme Inc", 1)], id2comp := [(1, "Acme Inc")],
    missingOrgs := [], orgRows := [(1, "Acme Inc")] }

/-- A stored identity row for the C4 scenario. -/
def c4Stored : shIdentity :=
  { Email := some "jdoe@example.org", ID := "old-external-id",
    Name := some "John Doe", Source := "git", Username := some "jdoe",
    UUID := "uuid-c4" }

/-- The C4 incoming identity: a fresh external id but the same
normalized content tuple as the stored row. -/
def c4Incoming : shIdentity :=
  { Email := some "jdoe@example.org", ID := "new-external-id",
    Name := some "John Doe", Source := "git", Username := some "jdoe",
    UUID := "uuid-c4" }

/-- The per-enrollment resolution getCompIds performs in read-only
mode: a resolvable organization sets OrgID, an unknown one leaves the
enrollment untouched. -/
def resolveEnr (comp2id : List (String × Int)) (e : shEnrollment) : shEnrollment :=
  match lookupStr comp2id e.Organization with
  | some oid => { e with OrgID := oid }
  | none => e

/-- An empty profile used by the concrete scenarios. -/
def emptyProfile (uuid : String) : shProfile :=
  { Country := none, Email := none, Gender := none, GenderAcc := none,
    IsBot := none, Name := none, UUID := uuid, CountryCode := none }

/-- A date used by the C8 scenario. -/
def c8TimeStart : shTime := ⟨2019, 5, 1, 0, 0, 0, true⟩

/-- A date used by the C8 scenario. -/
def c8TimeEnd : shTime := ⟨2020, 5, 1, 0, 0, 0, true⟩

/-- A C8 enrollment whose organization A is resolvable. -/
def c8EnrA : shEnrollment := ⟨"uuid-c8", "A", c8TimeStart, c8TimeEnd, 0, none⟩

/-- A C8 enrollment whose organization B is unknown. -/
def c8EnrB : shEnrollment := ⟨"uuid-c8", "B", c8TimeStart, c8TimeEnd, 0, none⟩

/-- The C8 record: one resolvable and one unresolvable enrollment. -/
def c8Uid : shUIdentity :=
  { UUID := "uuid-c8", Profile := emptyProfile "uuid-c8", Identities := [],
    Enrollments := [c8EnrA, c8EnrB] }

/-- The database component of a successful run (dummy on error). -/
def okDb (r : Except String (dbState × importStats)) : dbState :=
  match r with
  | .ok pr => pr.fst
  | .error _ => ⟨[], [], [], []⟩

/-- The statistics component of a successful run (dummy on error). -/
def okStats (r : Except String (dbState × importStats)) : importStats :=
  match r with
  | .ok pr => pr.snd
  | .error _ => emptyStats

/-- A stored enrollment row under project slug foundation/x, belonging
to a different unique identity. -/
def c9RowX : enrollmentRow :=
  ⟨"uuid-other", 1, c8TimeStart, c8TimeEnd, some "foundation/x"⟩

/-- A stored enrollment row under project slug foundation/y, belonging
to a different unique identity. -/
def c9RowY : enrollmentRow :=
  ⟨"uuid-other", 1, c8TimeStart, c8TimeEnd, some "foundation/y"⟩

/-- The C9 starting database: enrollment rows under two slugs. -/
def c9Db : dbState := ⟨[], [], [], [c9RowX, c9RowY]⟩

/-- The C9 record: one enrollment in the known organization A. -/
def c9Uid : shUIdentity :=
  { UUID := "uuid-c9", Profile := emptyProfile "uuid-c9", Identities := [],
    Enrollments := [⟨"uuid-c9", "A", c8TimeStart, c8TimeEnd, 0, none⟩] }

/-- The C9 run: replace and compare on, scoped to slug foundation/y. -/
def c9Run : Except String (dbState × importStats) :=
  processUIdentity true true false (some "foundation/y") [("A", 1)] [(1, "A")]
    c9Db c9Uid

/-- The project slug configured in the C2 scenario. -/
def c2Slug : Option String := some "foundation/x"

/-- The single enrollment of the C2 record, in the known organization
Acme Inc; as parsed from JSON its OrgID is 0 and its ProjectSlug nil. -/
def c2Enr : shEnrollment :=
  ⟨"uuid-c2", "Acme Inc", ⟨2020, 1, 1, 0, 0, 0, true⟩,
   ⟨2021, 1, 1, 0, 0, 0, true⟩, 0, none⟩

/-- The C2 record: an empty profile and one enrollment. -/
def c2Uid : shUIdentity :=
  { UUID := "uuid-c2", Profile := emptyProfile "uuid-c2", Identities := [],
    Enrollments := [c2Enr] }

/-- The C2 organization registry. -/
def c2Comp2id : List (String × Int) := [("Acme Inc", 1)]

/-- The C2 reverse organization registry. -/
def c2Id2comp : List (Int × String) := [(1, "Acme Inc")]

/-- First run of the C2 batch on an empty store, replace and compare on,
scoped to slug foundation/x. -/
def c2FirstRun : Except String (dbState × importStats) :=
  processUIdentity true true false c2Slug c2Comp2id c2Id2comp
    ⟨[], [], [], []⟩ c2Uid

/-- Second run of the same batch on the store produced by the first. -/
def c2SecondRun : Except String (dbState × importStats) :=
  processUIdentity true true false c2Slug c2Comp2id c2Id2comp
    (okDb c2FirstRun) c2Uid

/-- The record of the C10 witness batch. -/
def c10Uid : shUIdentity :=
  { UUID := "uuid-c10", Profile := emptyProfile "uuid-c10", Identities := [],
    Enrollments := [] }

/-- The C10 witness batch run: two records (the same record twice) on an
empty store. -/
def c10Run : Except String (dbState × importStats) :=
  runBatch false false false none [] [] ⟨[], [], [], []⟩ emptyStats
    [c10Uid, c10Uid]

/-- The C10 witness single-record run. -/
def c10Single : Except String (dbState × importStats) :=
  processUIdentity false false false none [] [] ⟨[], [], [], []⟩ c10Uid

theorem goFieldDiffers_eq_fieldDiffers (f : α → β) [BEq β] (a b : Option α) :
    goFieldDiffers f a b = fieldDiffers f a b := by
  cases a <;> cases b <;> simp [goFieldDiffers, fieldDiffers]

/-- Claim C1 (confirmed): on every combination of the fetched, compare,
replace and compared-different conditions, the delete and insert
decisions taken by the worker phases (phaseDecision, shared verbatim by
the profile, identity and enrollment phases) are exactly the ones given
by the decision table of the specification. -/
theorem c1_phase_decision_matches_table :
    ∀ fetched compare replace differ : Bool,
      ((phaseDecision fetched compare replace differ).snd.fst,
       (phaseDecision fetched compare replace differ).snd.snd) =
        tableAction fetched compare replace differ := by
  decide

/-- Claim C3, counterexample: on two profiles that differ only in the
gender field the source differ reports no difference although the claim
(profile differ detects a difference in any of the six optional fields,
gender included) requires one; the claimed equivalence fails at this
concrete input. -/
theorem c3_counterexample :
    ¬ (profilesDiffer c3ProfileA c3ProfileB = true ↔
       specProfilesDiffer c3ProfileA c3ProfileB = true) := by
  decide

/-- Claim C3 as amended (gender removed from the field list): the
profile differ reports a difference exactly when presence disagrees, or
both sides are present with disagreeing normalized values, for one of
the fields name, email, gender-confidence, is-bot and country-code,
country codes being truncated to 2 characters before comparison; the
differ is a pure function of its two arguments. -/
theorem c3_profiles_differ_amended (p1 p2 : shProfile) :
    profilesDiffer p1 p2 = specProfilesDifferNoGender p1 p2 := by
  simp [profilesDiffer, specProfilesDifferNoGender, goFieldDiffers_eq_fieldDiffers]

theorem any_not_contains_eq_false (m1 m2 : List String)
    (h : ∀ k, k ∈ m1 → k ∈ m2) :
    (m1.any (fun k => !(m2.contains k))) = false := by
  rw [List.any_eq_false]
  intro k hk
  simp only [Bool.not_eq_true', Bool.not_eq_false]
  exact List.elem_eq_true_of_mem (h k hk)

/-- Claim C5 (confirmed): the enrollment differ is order-independent
(permuted lists never differ) and it separates two singleton lists
whose only discrepancy is the end date (2021-01-01 versus 2021-01-02). -/
theorem c5_enrollments_set_equality :
    (∀ l1 l2 : List shEnrollment, l1.Perm l2 → enrollmentsDiffer l1 l2 = false) ∧
    enrollmentsDiffer [c5EnrA] [c5EnrB] = true := by
  constructor
  · intro l1 l2 hperm
    have hmap := hperm.map shEnrollment.String
    simp only [enrollmentsDiffer]
    rw [Bool.or_eq_false_iff]
    exact ⟨any_not_contains_eq_false _ _ (fun k hk => hmap.mem_iff.mp hk),
           any_not_contains_eq_false _ _ (fun k hk => hmap.mem_iff.mpr hk)⟩
  · decide

/-- Witness for claim C5: a concrete two-element permutation compares
as not different. -/
theorem c5_witness :
    enrollmentsDiffer [c5EnrA, c5EnrB] [c5EnrB, c5EnrA] = false :=
  c5_enrollments_set_equality.1 [c5EnrA, c5EnrB] [c5EnrB, c5EnrA]
    (List.Perm.swap c5EnrB c5EnrA [])

/-- Claim C6 (confirmed): in organizations-read-only mode, an unknown
name (absent from the exact and the case-insensitive registries) that
matches a configured regex mapping rule whose canonical name resolves
in the registry is recorded under the canonical name's existing id, and
the organizations table is not written. -/
theorem c6_org_regex_fallback (rmatch : String → String → Bool)
    (lcomp2id : List (String × Int)) (re canonical comp : String) (cid : Int)
    (st : orgState)
    (h1 : lookupStr st.comp2id comp = none)
    (h2 : lookupStr lcomp2id (stringToLower comp) = none)
    (h3 : rmatch comp (unescapeRe re) = true)
    (h4 : lookupStr st.comp2id canonical = some cid) :
    lookupStr (processOrg rmatch [(re, canonical)] lcomp2id comp st).comp2id comp
      = some cid ∧
    (processOrg rmatch [(re, canonical)] lcomp2id comp st).orgRows = st.orgRows := by
  have hmain : processOrg rmatch [(re, canonical)] lcomp2id comp st =
      { st with comp2id := insertStr st.comp2id comp cid,
                id2comp := insertInt st.id2comp cid comp } := by
    unfold processOrg firstMapping
    simp [h1, h2, h3, h4]
  rw [hmain]
  constructor
  · simp [lookupStr, insertStr, List.find?]
  · rfl

/-- Witness for claim C6: registry containing Acme Inc with id 1, rule
mapping pattern caret Acme dot star to Acme Inc, unknown name Acme
Corp: resolution yields id 1 and the organizations table is unchanged. -/
theorem c6_witness :
    lookupStr (processOrg c6Rmatch [("^Acme.*", "Acme Inc")] [("acme inc", 1)]
      "Acme Corp" c6Registry).comp2id "Acme Corp" = some 1 ∧
    (processOrg c6Rmatch [("^Acme.*", "Acme Inc")] [("acme inc", 1)]
      "Acme Corp" c6Registry).orgRows = c6Registry.orgRows :=
  c6_org_regex_fallback c6Rmatch [("acme inc", 1)] "^Acme.*" "Acme Inc"
    "Acme Corp" 1 c6Registry (by decide) (by decide) (by decide) (by decide)

/-- Claim C7, code bug: for the name ACME INC, absent from the exact
registry but whose lower-cased form acme inc is in the case-insensitive
registry with id 1, the source records comp2id[ACME INC] = 0 (the Go
zero value left over from the failed exact lookup) instead of the
matching entry's existing id 1. -/
theorem c7_case_insensitive_match_records_zero_id :
    lookupStr (processOrg (fun _ _ => false) [] [("acme inc", 1)] "ACME INC"
      c7Registry).comp2id "ACME INC" = some 0 ∧
    lookupStr c7Registry.comp2id "Acme Inc" = some 1 := by
  decide

/-- Claim C4 (confirmed): when the incoming external id matches no
stored row but the normalized content tuple matches some stored row
(under the SQL semantics of the fetch statement, all compared fields
non-NULL and equal), the identity is counted as found (1) and not as
added (0), and with replace off the identities table is left exactly as
it was: no insert and no delete. -/
theorem c4_identity_or_match (compare : Bool) (rows : List shIdentity)
    (identity : shIdentity)
    (_hid : ∀ r ∈ rows, (r.ID == identity.ID) = false)
    (htuple : ∃ r ∈ rows, identityTupleMatch identity r = true) :
    (identityStep compare false rows identity).snd.identitiesFound = 1 ∧
    (identityStep compare false rows identity).snd.identitiesAdded = 0 ∧
    (identityStep compare false rows identity).fst = rows := by
  obtain ⟨r, hr, hmatch⟩ := htuple
  have hfind : (rows.find? (fun x => identityMatch identity x)).isSome = true := by
    rw [List.find?_isSome]
    exact ⟨r, hr, by simp [identityMatch, hmatch]⟩
  obtain ⟨ex, hex⟩ := Option.isSome_iff_exists.mp hfind
  simp [identityStep, hex, phaseDecision]

/-- Witness for claim C4: the stored row has external id
old-external-id, the incoming identity has new-external-id and the same
content tuple; it is counted found, not added, and the table is kept. -/
theorem c4_witness :
    (identityStep true false [c4Stored] c4Incoming).snd.identitiesFound = 1 ∧
    (identityStep true false [c4Stored] c4Incoming).snd.identitiesAdded = 0 ∧
    (identityStep true false [c4Stored] c4Incoming).fst = [c4Stored] :=
  c4_identity_or_match true [c4Stored] c4Incoming (by decide)
    ⟨c4Stored, by decide, by decide⟩

theorem getCompIds_error_of_unresolved (comp2id : List (String × Int))
    (es : List shEnrollment)
    (h : ∃ e ∈ es, lookupStr comp2id e.Organization = none) :
    ∃ msg, getCompIds false comp2id es = Except.error msg := by
  induction es with
  | nil => simp at h
  | cons e rest ih =>
    obtain ⟨x, hx, hnone⟩ := h
    rcases List.mem_cons.mp hx with hxe | hxrest
    · subst hxe
      exact ⟨"organization " ++ x.Organization ++ " not found",
        by simp [getCompIds, hnone]⟩
    · cases hlook : lookupStr comp2id e.Organization with
      | none =>
        exact ⟨"organization " ++ e.Organization ++ " not found",
          by simp [getCompIds, hlook]⟩
      | some oid =>
        obtain ⟨msg, hmsg⟩ := ih ⟨x, hxrest, hnone⟩
        exact ⟨msg, by simp [getCompIds, hlook, hmsg]⟩

theorem getCompIds_ro_ok (comp2id : List (String × Int)) (es : List shEnrollment) :
    getCompIds true comp2id es = Except.ok (es.map (resolveEnr comp2id)) := by
  induction es with
  | nil => rfl
  | cons e rest ih =>
    cases hlook : lookupStr comp2id e.Organization <;>
      simp [getCompIds, resolveEnr, hlook, ih]

theorem lookupStr_pos (m : List (String × Int)) (k : String) (v : Int)
    (hpos : ∀ p ∈ m, 0 < p.snd) (h : lookupStr m k = some v) : 0 < v := by
  unfold lookupStr at h
  cases hfind : List.find? (fun p => p.fst == k) m with
  | none => rw [hfind] at h; simp at h
  | some pair =>
    rw [hfind] at h
    simp at h
    subst h
    exact hpos pair (List.mem_of_find?_eq_some hfind)

theorem insertEnrollments_ro_counts (comp2id : List (String × Int))
    (slug : Option String) (es : List shEnrollment)
    (hzero : ∀ e ∈ es, e.OrgID = 0) (hpos : ∀ p ∈ comp2id, 0 < p.snd) :
    (insertEnrollments true slug (es.map (resolveEnr comp2id))).snd.snd =
      (es.filter (fun e => (lookupStr comp2id e.Organization).isNone)).length ∧
    (insertEnrollments true slug (es.map (resolveEnr comp2id))).snd.fst =
      (es.filter (fun e => (lookupStr comp2id e.Organization).isSome)).length := by
  induction es with
  | nil => simp [insertEnrollments]
  | cons e rest ih =>
    have hz := hzero e (List.mem_cons_self e rest)
    have ihr := ih (fun x hx => hzero x (List.mem_cons_of_mem _ hx))
    cases hlook : lookupStr comp2id e.Organization with
    | none =>
      simp [insertEnrollments, resolveEnr, hlook, hz, ihr.1, ihr.2]
    | some oid =>
      have hoid : (0 : Int) < oid := lookupStr_pos comp2id e.Organization oid hpos hlook
      have hnotle : ¬ (oid ≤ 0) := not_le.mpr hoid
      simp [insertEnrollments, resolveEnr, hlook, hnotle, ihr.1, ihr.2]

/-- Claim C8 (confirmed): processing a record whose fetch found no
enrollment rows (so the insert path runs) while some enrollment's
organization name resolves to no id: with organizations-read-only off,
the enrollment phase is fatal; with it on, the phase succeeds, the
unresolvable enrollments are counted in enrollmentsSkipped (at least
the one claimed), and the remaining enrollments are still inserted and
counted in enrollmentsAdded. -/
theorem c8_unresolved_enrollment (compare replace : Bool) (slug : Option String)
    (comp2id : List (String × Int)) (id2comp : List (Int × String))
    (rows : List enrollmentRow) (uid : shUIdentity)
    (hnof : rows.filter (enrollmentMatchRow uid.UUID slug) = [])
    (hbad : ∃ e ∈ uid.Enrollments, lookupStr comp2id e.Organization = none)
    (hzero : ∀ e ∈ uid.Enrollments, e.OrgID = 0)
    (hpos : ∀ p ∈ comp2id, 0 < p.snd) :
    (∃ msg, enrollmentPhase compare replace false slug comp2id id2comp rows uid =
        Except.error msg) ∧
    (∃ rows2 sts,
        enrollmentPhase compare replace true slug comp2id id2comp rows uid =
          Except.ok (rows2, sts) ∧
        sts.enrollmentsSkipped =
          (uid.Enrollments.filter
            (fun e => (lookupStr comp2id e.Organization).isNone)).length ∧
        sts.enrollmentsAdded =
          (uid.Enrollments.filter
            (fun e => (lookupStr comp2id e.Organization).isSome)).length ∧
        1 ≤ sts.enrollmentsSkipped) := by
  obtain ⟨msg, herr⟩ := getCompIds_error_of_unresolved comp2id uid.Enrollments hbad
  have hok := getCompIds_ro_ok comp2id uid.Enrollments
  obtain ⟨hskip, hadd⟩ := insertEnrollments_ro_counts comp2id slug uid.Enrollments hzero hpos
  constructor
  · exact ⟨msg, by
      simp [enrollmentPhase, enrollCmpStep, enrollApply, hnof, phaseDecision, herr]⟩
  · refine ⟨rows ++ (insertEnrollments true slug
        (uid.Enrollments.map (resolveEnr comp2id))).fst,
      mkEnrollStats false false false
        (insertEnrollments true slug (uid.Enrollments.map (resolveEnr comp2id))).snd.fst
        (insertEnrollments true slug (uid.Enrollments.map (resolveEnr comp2id))).snd.snd,
      ?_, ?_, ?_, ?_⟩
    · simp [enrollmentPhase, enrollCmpStep, enrollApply, hnof, phaseDecision, hok]
    · simpa [mkEnrollStats] using hskip
    · simpa [mkEnrollStats] using hadd
    · obtain ⟨e, he, hen⟩ := hbad
      have hmem : e ∈ uid.Enrollments.filter
          (fun x => (lookupStr comp2id x.Organization).isNone) :=
        List.mem_filter.mpr ⟨he, by simp [hen]⟩
      have hlen : 0 < (uid.Enrollments.filter
          (fun x => (lookupStr comp2id x.Organization).isNone)).length :=
        List.length_pos.mpr (List.ne_nil_of_mem hmem)
      simpa [mkEnrollStats, hskip] using hlen

/-- Witness for claim C8: one record with enrollments in organizations
A (known, id 1) and B (unknown): read-only off is fatal, read-only on
skips and counts one enrollment and adds the other. -/
theorem c8_witness :
    (∃ msg, enrollmentPhase false false false none [("A", 1)] [(1, "A")] [] c8Uid =
        Except.error msg) ∧
    (∃ rows2 sts,
        enrollmentPhase false false true none [("A", 1)] [(1, "A")] [] c8Uid =
          Except.ok (rows2, sts) ∧
        sts.enrollmentsSkipped =
          (c8Uid.Enrollments.filter
            (fun e => (lookupStr [("A", 1)] e.Organization).isNone)).length ∧
        sts.enrollmentsAdded =
          (c8Uid.Enrollments.filter
            (fun e => (lookupStr [("A", 1)] e.Organization).isSome)).length ∧
        1 ≤ sts.enrollmentsSkipped) :=
  c8_unresolved_enrollment false false none [("A", 1)] [(1, "A")] [] c8Uid rfl
    ⟨c8EnrB, by decide, by decide⟩ (by decide) (by decide)

theorem insertEnrollments_slug (orgsRO : Bool) (slug : Option String)
    (es : List shEnrollment) :
    ∀ r ∈ (insertEnrollments orgsRO slug es).fst, r.project_slug = slug := by
  induction es with
  | nil => simp [insertEnrollments]
  | cons e rest ih =>
    intro r hr
    simp only [insertEnrollments] at hr
    split at hr
    · exact ih r hr
    · rcases List.mem_cons.mp hr with hre | hrr
      · subst hre; rfl
      · exact ih r hrr

theorem filter_otherSlug_after_delete (rows : List enrollmentRow)
    (uuid : String) (slug : Option String) :
    (rows.filter (fun r => !(enrollmentMatchRow uuid slug r))).filter
      (fun r => !(r.project_slug == slug)) =
    rows.filter (fun r => !(r.project_slug == slug)) := by
  induction rows with
  | nil => rfl
  | cons r rest ih =>
    by_cases hs : (r.project_slug == slug) = true
    · by_cases hm : enrollmentMatchRow uuid slug r = true <;>
        simp [hm, hs, ih]
    · have hm : enrollmentMatchRow uuid slug r = false := by
        simp [enrollmentMatchRow, Bool.eq_false_iff.mpr hs]
      simp only [Bool.not_eq_true] at hs
      simp [hm, hs, ih]

theorem enrollApply_frame (compare replace orgsRO : Bool) (slug : Option String)
    (comp2id : List (String × Int)) (rows : List enrollmentRow) (uuid : String)
    (fetched : Bool) (cmp : Bool × List shEnrollment × Bool)
    (pr : List enrollmentRow × importStats)
    (h : enrollApply compare replace orgsRO slug comp2id rows uuid fetched cmp =
      Except.ok pr) :
    pr.fst.filter (fun r => !(r.project_slug == slug)) =
      rows.filter (fun r => !(r.project_slug == slug)) := by
  have hinserted : ∀ es : List shEnrollment,
      ((insertEnrollments orgsRO slug es).fst).filter
        (fun r => !(r.project_slug == slug)) = [] := by
    intro es
    rw [List.filter_eq_nil_iff]
    intro a ha
    simp [insertEnrollments_slug orgsRO slug es a ha]
  have hbase : ∀ del : Bool,
      ((if del then rows.filter (fun r => !(enrollmentMatchRow uuid slug r))
        else rows).filter (fun r => !(r.project_slug == slug))) =
      rows.filter (fun r => !(r.project_slug == slug)) := by
    intro del
    cases del
    · rfl
    · exact filter_otherSlug_after_delete rows uuid slug
  by_cases hi : (phaseDecision fetched compare replace cmp.fst).snd.snd = true
  · by_cases hc : cmp.snd.snd = true
    · simp only [enrollApply, hi, hc, if_true, Except.ok.injEq] at h
      subst h
      simp [List.filter_append, hinserted, hbase]
    · cases hg : getCompIds orgsRO comp2id cmp.snd.fst with
      | error msg => simp [enrollApply, hi, hc, hg] at h
      | ok es2 =>
        simp only [enrollApply, hi, hc, hg, if_true, Bool.false_eq_true,
          if_false, Except.ok.injEq] at h
        subst h
        simp [List.filter_append, hinserted, hbase]
  · simp only [enrollApply, hi, Bool.false_eq_true, if_false,
      Except.ok.injEq] at h
    subst h
    simp [hbase]

theorem enrollmentPhase_frame (compare replace orgsRO : Bool)
    (slug : Option String) (comp2id : List (String × Int))
    (id2comp : List (Int × String)) (rows : List enrollmentRow)
    (uid : shUIdentity) (pr : List enrollmentRow × importStats)
    (h : enrollmentPhase compare replace orgsRO slug comp2id id2comp rows uid =
      Except.ok pr) :
    pr.fst.filter (fun r => !(r.project_slug == slug)) =
      rows.filter (fun r => !(r.project_slug == slug)) := by
  unfold enrollmentPhase at h
  split at h
  · exact absurd h (by simp)
  · exact enrollApply_frame compare replace orgsRO slug comp2id rows uid.UUID
      (!(rows.filter (enrollmentMatchRow uid.UUID slug)).isEmpty) _ pr h

/-- Claim C9 (confirmed): a run over one unique identity scoped to a
project slug fetches into the comparison only enrollment rows carrying
that slug (rows passing the fetch filter all carry it), and leaves the
enrollment rows carrying any other slug exactly as they were. -/
theorem c9_project_slug_scoping (replace compare orgsRO : Bool)
    (slug : Option String) (comp2id : List (String × Int))
    (id2comp : List (Int × String)) (db : dbState) (uid : shUIdentity)
    (db2 : dbState) (sts : importStats)
    (h : processUIdentity replace compare orgsRO slug comp2id id2comp db uid =
      Except.ok (db2, sts)) :
    db2.enrollments.filter (fun r => !(r.project_slug == slug)) =
      db.enrollments.filter (fun r => !(r.project_slug == slug)) ∧
    ∀ r ∈ db.enrollments.filter (enrollmentMatchRow uid.UUID slug),
      r.project_slug = slug := by
  constructor
  · unfold processUIdentity at h
    split at h
    · exact absurd h (by simp)
    · rename_i pr heq
      rw [Except.ok.injEq] at h
      have hfst := congrArg Prod.fst h
      dsimp only at hfst
      have hdb2 : db2.enrollments = pr.fst := by
        rw [← hfst]
      rw [hdb2]
      exact enrollmentPhase_frame compare replace orgsRO slug comp2id id2comp
        db.enrollments uid pr heq
  · intro r hr
    have hmatch := (List.mem_filter.mp hr).2
    simp only [enrollmentMatchRow, Bool.and_eq_true, beq_iff_eq] at hmatch
    exact hmatch.2

/-- Witness for claim C9: a database holding enrollment rows under
slugs foundation/x and foundation/y; a replace-and-compare run scoped
to foundation/y inserts only foundation/y rows and leaves the
foundation/x row untouched. -/
theorem c9_witness :
    (okDb c9Run).enrollments.filter
        (fun r => !(r.project_slug == some "foundation/y")) =
      c9Db.enrollments.filter
        (fun r => !(r.project_slug == some "foundation/y")) ∧
    ∀ r ∈ c9Db.enrollments.filter
        (enrollmentMatchRow c9Uid.UUID (some "foundation/y")),
      r.project_slug = some "foundation/y" :=
  c9_project_slug_scoping true true false (some "foundation/y") [("A", 1)]
    [(1, "A")] c9Db c9Uid (okDb c9Run) (okStats c9Run) (by rfl)

/-- Claim C2, code bug: on the second compare-mode run of the same
one-record batch under project slug foundation/x, the enrollment is
fetched but counted as different (enrollmentsSame stays 0) and, with
replace on, deleted and re-inserted, because the insert statement
stores the configured project slug while the incoming record parsed
from JSON carries a nil ProjectSlug and the compare key includes the
slug; the profile of the same record is correctly counted same, showing
the failure is specific to the enrollment kind. -/
theorem c2_second_run_not_idempotent :
    (okStats c2SecondRun).profilesFound = 1 ∧
    (okStats c2SecondRun).profilesSame = 1 ∧
    (okStats c2SecondRun).enrollmentsFound = 1 ∧
    (okStats c2SecondRun).enrollmentsSame = 0 ∧
    (okStats c2SecondRun).enrollmentsDeleted = 1 ∧
    (okStats c2SecondRun).enrollmentsAdded = 1 := by
  decide

theorem profilePhase_uid_counters (compare replace : Bool)
    (profs : List shProfile) (uid : shUIdentity) :
    (profilePhase compare replace profs uid).snd.uidentitiesAdded = 0 ∧
    (profilePhase compare replace profs uid).snd.uidentitiesFound = 0 :=
  ⟨rfl, rfl⟩

theorem identitiesPhase_uid_counters (compare replace : Bool)
    (idents : List shIdentity) :
    ∀ rows : List shIdentity,
      (identitiesPhase compare replace rows idents).snd.uidentitiesAdded = 0 ∧
      (identitiesPhase compare replace rows idents).snd.uidentitiesFound = 0 := by
  induction idents with
  | nil => intro rows; exact ⟨rfl, rfl⟩
  | cons i rest ih =>
    intro rows
    have hstep : (identityStep compare replace rows i).snd.uidentitiesAdded = 0 ∧
        (identityStep compare replace rows i).snd.uidentitiesFound = 0 := ⟨rfl, rfl⟩
    have ihr := ih (identityStep compare replace rows i).fst
    simp [identitiesPhase, addStats, hstep.1, hstep.2, ihr.1, ihr.2]

theorem enrollApply_uid_counters (compare replace orgsRO : Bool)
    (slug : Option String) (comp2id : List (String × Int))
    (rows : List enrollmentRow) (uuid : String) (fetched : Bool)
    (cmp : Bool × List shEnrollment × Bool)
    (pr : List enrollmentRow × importStats)
    (h : enrollApply compare replace orgsRO slug comp2id rows uuid fetched cmp =
      Except.ok pr) :
    pr.snd.uidentitiesAdded = 0 ∧ pr.snd.uidentitiesFound = 0 := by
  by_cases hi : (phaseDecision fetched compare replace cmp.fst).snd.snd = true
  · by_cases hc : cmp.snd.snd = true
    · simp only [enrollApply, hi, hc, if_true, Except.ok.injEq] at h
      subst h
      exact ⟨rfl, rfl⟩
    · cases hg : getCompIds orgsRO comp2id cmp.snd.fst with
      | error msg => simp [enrollApply, hi, hc, hg] at h
      | ok es2 =>
        simp only [enrollApply, hi, hc, hg, if_true, Bool.false_eq_true,
          if_false, Except.ok.injEq] at h
        subst h
        exact ⟨rfl, rfl⟩
  · simp only [enrollApply, hi, Bool.false_eq_true, if_false,
      Except.ok.injEq] at h
    subst h
    exact ⟨rfl, rfl⟩

theorem enrollmentPhase_uid_counters (compare replace orgsRO : Bool)
    (slug : Option String) (comp2id : List (String × Int))
    (id2comp : List (Int × String)) (rows : List enrollmentRow)
    (uid : shUIdentity) (pr : List enrollmentRow × importStats)
    (h : enrollmentPhase compare replace orgsRO slug comp2id id2comp rows uid =
      Except.ok pr) :
    pr.snd.uidentitiesAdded = 0 ∧ pr.snd.uidentitiesFound = 0 := by
  unfold enrollmentPhase at h
  split at h
  · exact absurd h (by simp)
  · exact enrollApply_uid_counters compare replace orgsRO slug comp2id rows
      uid.UUID (!(rows.filter (enrollmentMatchRow uid.UUID slug)).isEmpty) _ pr h

theorem processUIdentity_uid_counters (replace compare orgsRO : Bool)
    (slug : Option String) (comp2id : List (String × Int))
    (id2comp : List (Int × String)) (db : dbState) (uid : shUIdentity)
    (pr : dbState × importStats)
    (h : processUIdentity replace compare orgsRO slug comp2id id2comp db uid =
      Except.ok pr) :
    pr.snd.uidentitiesAdded + pr.snd.uidentitiesFound = 1 := by
  unfold processUIdentity at h
  split at h
  · exact absurd h (by simp)
  · rename_i epr heq
    rw [Except.ok.injEq] at h
    have hsnd := congrArg Prod.snd h
    dsimp only at hsnd
    have hE := enrollmentPhase_uid_counters compare replace orgsRO slug comp2id
      id2comp db.enrollments uid epr heq
    have hP := profilePhase_uid_counters compare replace db.profiles uid
    have hI := identitiesPhase_uid_counters compare replace uid.Identities
      db.identities
    rw [← hsnd]
    simp only [addStats, hP.1, hP.2, hI.1, hI.2, hE.1, hE.2]
    by_cases hf : uid.UUID ∈ db.uidentities <;> simp [hf]

theorem runBatch_uid_counters (replace compare orgsRO : Bool)
    (slug : Option String) (comp2id : List (String × Int))
    (id2comp : List (Int × String)) :
    ∀ (uids : List shUIdentity) (db : dbState) (stats0 : importStats)
      (db2 : dbState) (sts : importStats),
      runBatch replace compare orgsRO slug comp2id id2comp db stats0 uids =
        Except.ok (db2, sts) →
      sts.uidentitiesAdded + sts.uidentitiesFound =
        stats0.uidentitiesAdded + stats0.uidentitiesFound + uids.length := by
  intro uids
  induction uids with
  | nil =>
    intro db stats0 db2 sts h
    simp only [runBatch, Except.ok.injEq] at h
    have hsnd := congrArg Prod.snd h
    dsimp only at hsnd
    rw [← hsnd]
    simp
  | cons u rest ih =>
    intro db stats0 db2 sts h
    unfold runBatch at h
    split at h
    · exact absurd h (by simp)
    · rename_i res hp
      have hone := processUIdentity_uid_counters replace compare orgsRO slug
        comp2id id2comp db u res hp
      have hrest := ih res.fst (addStats stats0 res.snd) db2 sts h
      simp only [addStats] at hrest
      simp only [List.length_cons]
      omega

/-- Claim C10 (confirmed): every successfully processed UniqueIdentity
record contributes exactly 1 to uidentitiesAdded plus uidentitiesFound
(so exactly one of the two counters is incremented, by exactly 1), and
a successfully completed batch starting from zeroed statistics ends
with uidentitiesAdded + uidentitiesFound equal to the number of records
processed. -/
theorem c10_uidentity_counters (replace compare orgsRO : Bool)
    (slug : Option String) (comp2id : List (String × Int))
    (id2comp : List (Int × String)) (db0 : dbState) (uid : shUIdentity)
    (pr : dbState × importStats) (db : dbState) (uids : List shUIdentity)
    (db2 : dbState) (sts : importStats)
    (h1 : processUIdentity replace compare orgsRO slug comp2id id2comp db0 uid =
      Except.ok pr)
    (h2 : runBatch replace compare orgsRO slug comp2id id2comp db emptyStats uids =
      Except.ok (db2, sts)) :
    pr.snd.uidentitiesAdded + pr.snd.uidentitiesFound = 1 ∧
    sts.uidentitiesAdded + sts.uidentitiesFound = uids.length := by
  refine ⟨processUIdentity_uid_counters replace compare orgsRO slug comp2id
    id2comp db0 uid pr h1, ?_⟩
  have hb := runBatch_uid_counters replace compare orgsRO slug comp2id id2comp
    uids db emptyStats db2 sts h2
  simpa [emptyStats] using hb

/-- Witness for claim C10: a single fresh record contributes exactly 1,
and a batch of two records ends with the two uidentity counters summing
to 2. -/
theorem c10_witness :
    (okStats c10Single).uidentitiesAdded +
      (okStats c10Single).uidentitiesFound = 1 ∧
    (okStats c10Run).uidentitiesAdded + (okStats c10Run).uidentitiesFound = 2 := by
  have h := c10_uidentity_counters false false false none [] []
    ⟨[], [], [], []⟩ c10Uid (okDb c10Single, okStats c10Single)
    ⟨[], [], [], []⟩ [c10Uid, c10Uid] (okDb c10Run) (okStats c10Run)
    (by rfl) (by rfl)
  simpa using h
